import Mathlib

/-!
# Shallow embedding of `simple_cache` (Go) in Lean 4

This file models the single data structure of the repository: a fixed-capacity,
TTL, LRU-ordered cache (`src/simple_cache.go`).  Go's pointer-linked records are
rendered as an arena (`List` of records addressed by stable indices), the
`map[string]*SimpleCacheEntry` index as an association list from keys to arena
indices, and the sentinel doubly-linked list as a plain list of arena indices
with the most-recently-used record first.  This renders Go's aliasing faithfully:
the index and the ordering list can refer to the same record, and records can
survive in one structure after vanishing from the other (exactly what happens
after `clean`).

Wall-clock time is a natural number of ticks; every operation takes the current
time as an argument (the Go code calls `time.Now()`).  The key adapter
`toMapKey`, a function field of the Go struct, is passed to each operation
explicitly so that cache states stay decidably comparable.
-/

set_option linter.unusedVariables false

/-- State that a cache entry could have (Go constants `AVAILABLE`, `BUSY`). -/
inductive EntryState where
  | AVAILABLE
  | BUSY
deriving DecidableEq, Repr

/-- Go `SimpleCacheEntry` without the intrusive `prev`/`next` pointers: list
membership is recorded by the cache's ordering list of arena indices instead. -/
structure SimpleCacheEntry (α : Type) where
  key : String
  value : α
  timestamp : Nat
  expirationTime : Nat
  state : EntryState
deriving DecidableEq, Repr

/-- Go `SimpleCache`.  `arena` holds every record ever allocated (a record's
identity is its index); `table` is the key index; `order` is the MRU-to-LRU
ordering list (Go's sentinel list read from `head.next` to `head.prev`).
The mutex is irrelevant to the sequential semantics and is omitted;
`toMapKey` is passed per call. -/
structure SimpleCache (α : Type) where
  arena : List (SimpleCacheEntry α)
  table : List (String × Nat)
  missCount : Nat
  hitCount : Nat
  ttl : Nat
  order : List Nat
  capacity : Nat
  extendedCapacity : Nat
  numEntries : Nat
deriving DecidableEq, Repr

instance [Inhabited α] : Inhabited (SimpleCacheEntry α) :=
  ⟨{ key := "", value := default, timestamp := 0, expirationTime := 0,
     state := .AVAILABLE }⟩

instance : Inhabited (SimpleCache α) :=
  ⟨{ arena := [], table := [], missCount := 0, hitCount := 0, ttl := 0,
     order := [], capacity := 0, extendedCapacity := 0, numEntries := 0 }⟩

/-- Failure taxonomy of the public operations (Go returns `error` values; the
strings are irrelevant, only which failure occurred). -/
inductive CacheErr where
  | keyAdaptation (msg : String)
  | cacheFull
  | notFound (key : String)
  | expired (key : String)
  | emptyCache
  | mruExpired
deriving DecidableEq, Repr

/-- Lookup in the key index (Go `cache.table[stringKey]`, `nil` when absent). -/
def tblLookup (k : String) : List (String × Nat) → Option Nat
  | [] => none
  | (k', id) :: rest => if k' = k then some id else tblLookup k rest

/-- Go `delete(cache.table, key)`. -/
def tblDelete (k : String) : List (String × Nat) → List (String × Nat)
  | [] => []
  | (k', id) :: rest =>
      if k' = k then tblDelete k rest else (k', id) :: tblDelete k rest

/-- Go `cache.table[key] = entry` (overwrites any previous binding). -/
def tblInsert (k : String) (id : Nat) (t : List (String × Nat)) :
    List (String × Nat) :=
  (k, id) :: tblDelete k t

/-- Update the record at arena index `n` in place. -/
def listModify (f : α → α) : Nat → List α → List α
  | _, [] => []
  | 0, a :: as => f a :: as
  | n + 1, a :: as => a :: listModify f n as

/-- Go `entry.hasExpired(currTime)`: `entry.expirationTime.Before(currTime)`,
a strict comparison. -/
def hasExpired (e : SimpleCacheEntry α) (currTime : Nat) : Bool :=
  decide (e.expirationTime < currTime)

/-- Go `cache.getMRU()`: `head.next`, or `nil` when the list is empty. -/
def SimpleCache.getMRU (c : SimpleCache α) : Option Nat :=
  c.order.head?

/-- Go `cache.getLRU()`: `head.prev`, or `nil` when the list is empty. -/
def SimpleCache.getLRU (c : SimpleCache α) : Option Nat :=
  c.order.getLast?

/-- Go `cache.insertAsMru(entry)`: splice at the head of the ordering list. -/
def insertAsMru (c : SimpleCache α) (id : Nat) : SimpleCache α :=
  { c with order := id :: c.order }

/-- Go `entry.selfDeleteFromLRUList()`: unlink from the ordering list. -/
def selfDeleteFromLRUList (c : SimpleCache α) (id : Nat) : SimpleCache α :=
  { c with order := c.order.erase id }

/-- Go `cache.becomeMru(entry)`. -/
def becomeMru (c : SimpleCache α) (id : Nat) : SimpleCache α :=
  insertAsMru (selfDeleteFromLRUList c id) id

/-- Go `cache.evictLruEntry()`.  Inspects `head.prev`; refuses (error
"cache is full") when that record is unexpired AND still `BUSY`; otherwise
unlinks it, marks it `AVAILABLE`, deletes ITS OWN key from the index, and
hands its index back for reuse.  The two `none` branches are unreachable in
states reached from a construction with positive capacity (the Go code would
dereference the sentinel there). -/
def evictLruEntry (c : SimpleCache α) (now : Nat) :
    SimpleCache α × Except CacheErr Nat :=
  match c.getLRU with
  | none => (c, .error .cacheFull)
  | some id =>
    match c.arena.get? id with
    | none => (c, .error .cacheFull)
    | some e =>
      if ¬ hasExpired e now ∧ e.state = .BUSY then
        (c, .error .cacheFull)
      else
        let c1 := selfDeleteFromLRUList c id
        let c2 := { c1 with
          arena := listModify (fun e' => { e' with state := .AVAILABLE }) id c1.arena,
          table := tblDelete e.key c1.table }
        (c2, .ok id)

/-- Go `cache.allocateEntry(key)`.  At capacity, recycle the LRU slot via
`evictLruEntry`; below capacity, allocate a fresh zero-valued record (Go
`new(SimpleCacheEntry)`) and increment `numEntries`.  The obtained record is
linked as MRU, keyed, marked `BUSY` and indexed. -/
def allocateEntry [Inhabited α] (c : SimpleCache α) (now : Nat) (key : String) :
    SimpleCache α × Except CacheErr Nat :=
  let step : SimpleCache α × Except CacheErr Nat :=
    if c.numEntries = c.capacity then
      evictLruEntry c now
    else
      ({ c with
          arena := c.arena ++ [{ key := "", value := default, timestamp := 0,
                                 expirationTime := 0, state := .AVAILABLE }],
          numEntries := c.numEntries + 1 }, .ok c.arena.length)
  match step with
  | (c1, .error e) => (c1, .error e)
  | (c1, .ok id) =>
    let c2 := insertAsMru c1 id
    let c3 := { c2 with
      arena := listModify (fun e' => { e' with key := key, state := .BUSY }) id c2.arena,
      table := tblInsert key id c2.table }
    (c3, .ok id)

/-- Go `cache.InsertOrUpdate(key, value)`.  Adapts the key (propagating the
adapter's failure), then: key absent → bump `missCount` and allocate (a
`CacheFull` failure is returned as-is); in every successful path bump
`hitCount` and store value, timestamp and `expirationTime = now + ttl` into
the record.  An existing key's record is NOT moved in the ordering list.
The Go function returns only an `error`. -/
def InsertOrUpdate [Inhabited α] (c : SimpleCache α)
    (toMapKey : κ → Except String String) (now : Nat) (key : κ) (value : α) :
    SimpleCache α × Option CacheErr :=
  match toMapKey key with
  | .error msg => (c, some (.keyAdaptation msg))
  | .ok stringKey =>
    let step : SimpleCache α × Except CacheErr Nat :=
      match tblLookup stringKey c.table with
      | some id => (c, .ok id)
      | none =>
          allocateEntry { c with missCount := c.missCount + 1 } now stringKey
    match step with
    | (c1, .error e) => (c1, some e)
    | (c1, .ok id) =>
      let c2 := { c1 with hitCount := c1.hitCount + 1 }
      let c3 := { c2 with
        arena := listModify
          (fun e' => { e' with value := value, timestamp := now,
                               expirationTime := now + c2.ttl }) id c2.arena }
      (c3, none)

/-- Go `cache.Read(key)`.  Adapter failure propagates; absent key → bump
`missCount`, fail NotFound; expired record → bump `missCount`, fail Expired
but still hand back the stale value; live record → bump `hitCount`, refresh
`expirationTime = now + ttl`, move to MRU, return the value.  Result is
(new state, returned value or `nil`, failure or `nil`). -/
def Read [Inhabited α] (c : SimpleCache α)
    (toMapKey : κ → Except String String) (now : Nat) (key : κ) :
    SimpleCache α × Option α × Option CacheErr :=
  match toMapKey key with
  | .error msg => (c, none, some (.keyAdaptation msg))
  | .ok stringKey =>
    match tblLookup stringKey c.table with
    | none =>
        ({ c with missCount := c.missCount + 1 }, none,
         some (.notFound stringKey))
    | some id =>
      match c.arena.get? id with
      | none => (c, none, some (.notFound stringKey))
      | some e =>
        if hasExpired e now then
          ({ c with missCount := c.missCount + 1 }, some e.value,
           some (.expired stringKey))
        else
          let c1 := { c with
            hitCount := c.hitCount + 1,
            arena := listModify
              (fun e' => { e' with expirationTime := now + c.ttl }) id c.arena }
          (becomeMru c1 id, some e.value, none)

/-- Go `cache.GetMRU()`.  Purely observational: fails EmptyCache when
`numEntries == 0`; when the head record has expired or is `AVAILABLE`, fails
MruExpired but still returns the stale key and value.  The inner `none`
branches are unreachable from reachable states (Go would dereference `nil`). -/
def GetMRU (c : SimpleCache α) (now : Nat) :
    String × Option α × Option CacheErr :=
  if c.numEntries = 0 then ("", none, some .emptyCache)
  else
    match c.getMRU with
    | none => ("", none, some .emptyCache)
    | some id =>
      match c.arena.get? id with
      | none => ("", none, some .emptyCache)
      | some e =>
        if hasExpired e now ∨ e.state = .AVAILABLE then
          (e.key, some e.value, some .mruExpired)
        else
          (e.key, some e.value, none)

/-- Marking pass of Go `cache.clean()`: walk the ordering list once and mark
every record `AVAILABLE`. -/
def markAllAvailable (order : List Nat) (arena : List (SimpleCacheEntry α)) :
    List (SimpleCacheEntry α) :=
  match order with
  | [] => arena
  | id :: rest =>
      markAllAvailable rest
        (listModify (fun e => { e with state := .AVAILABLE }) id arena)

/-- Go `cache.clean()` / `cache.Clean()`: mark every listed record
`AVAILABLE`, then zero `numEntries`, `hitCount`, `missCount`.  The index and
the ordering list are NOT touched. -/
def clean (c : SimpleCache α) : SimpleCache α :=
  { c with
    arena := markAllAvailable c.order c.arena,
    numEntries := 0,
    hitCount := 0,
    missCount := 0 }

/-- Ceiling of `(1 + f) * capacity` computed on the rational's numerator and
denominator with natural-number arithmetic.  For the validated range
`f ≥ 1/10` the numerator is positive, and `(1+f)*capacity =
((f.den + f.num) * capacity) / f.den`, whose ceiling for a positive
denominator is `(dividend + divisor - 1) / divisor`. -/
def ceilOnePlusMul (f : ℚ) (capacity : Nat) : Nat :=
  ((f.den + f.num.toNat) * capacity + (f.den - 1)) / f.den

/-- Go `New(capacity, capFactor, ttl, toMapKey)`.  `float64` is rendered as
`ℚ`.  Only `capFactor` is validated; a violation panics, rendered as `none`.
`extendedCapacity = ceil((1+capFactor)*capacity)`. -/
def New (α : Type) (capacity : Nat) (capFactor : ℚ) (ttl : Nat) :
    Option (SimpleCache α) :=
  if capFactor < mkRat 1 10 ∨ capFactor > 3 then none
  else
    some
      { arena := [], table := [], missCount := 0, hitCount := 0, ttl := ttl,
        order := [], capacity := capacity,
        extendedCapacity := ceilOnePlusMul capFactor capacity,
        numEntries := 0 }

/-- The public operations a client can issue (the identity adapter stands in
for `toMapKey`; keys arrive already stringified). -/
inductive CacheOp (α : Type) where
  | insert (now : Nat) (key : String) (value : α)
  | read (now : Nat) (key : String)
  | getMRU (now : Nat)
  | clean
deriving DecidableEq, Repr

/-- State transition of one public operation.  `GetMRU` writes nothing. -/
def applyOp [Inhabited α] (c : SimpleCache α) : CacheOp α → SimpleCache α
  | .insert now k v => (InsertOrUpdate c Except.ok now k v).1
  | .read now k => (Read c Except.ok now k).1
  | .getMRU _ => c
  | .clean => clean c

/-- Run a sequence of operations from a given state. -/
def runOps [Inhabited α] (c : SimpleCache α) (ops : List (CacheOp α)) :
    SimpleCache α :=
  ops.foldl applyOp c


/-! ## Helper lemmas -/

theorem listModify_get_self (f : α → α) (n : Nat) (l : List α) :
    (listModify f n l).get? n = (l.get? n).map f := by
  induction l generalizing n with
  | nil => cases n <;> rfl
  | cons a as ih =>
    cases n with
    | zero => rfl
    | succ m => simpa [listModify] using ih m

theorem becomeMru_table (c : SimpleCache α) (id : Nat) :
    (becomeMru c id).table = c.table := rfl

theorem becomeMru_arena (c : SimpleCache α) (id : Nat) :
    (becomeMru c id).arena = c.arena := rfl

theorem becomeMru_order (c : SimpleCache α) (id : Nat) :
    (becomeMru c id).order = id :: c.order.erase id := rfl

/-! ## C1: MRU movement on reads and writes -/

/-- A capacity-2 cache holding "a" (record 0) and "b" (record 1), "b" written
last, all at time 0 with ttl 100. -/
def cacheC1 : SimpleCache Nat :=
  (InsertOrUpdate
    (InsertOrUpdate ((New Nat 2 1 100).getD default) Except.ok 0 "a" 1).1
    Except.ok 0 "b" 2).1

/-- C1 (counterexample): in `cacheC1`, an `InsertOrUpdate` of the existing key
"a" (record 0) succeeds, yet the ordering list stays `[1, 0]`: record 0 is NOT
moved to the most-recently-used end, and `GetMRU` still yields "b".  This
refutes the claim that a successful write of an existing key moves its record
to the MRU end. -/
theorem C1_counterexample :
    tblLookup "a" cacheC1.table = some 0 ∧
    (InsertOrUpdate cacheC1 Except.ok 0 "a" 3).2 = none ∧
    cacheC1.order = [1, 0] ∧
    (InsertOrUpdate cacheC1 Except.ok 0 "a" 3).1.order = [1, 0] ∧
    (GetMRU (InsertOrUpdate cacheC1 Except.ok 0 "a" 3).1 0).1 = "b" := by
  decide

/-- C1 (amended): a successful `Read` of a present, live key moves its record
to the most-recently-used end of the ordering list, but a successful
`InsertOrUpdate` of an existing key leaves the ordering list entirely
unchanged (only new-key allocation links a record at the MRU end). -/
theorem C1_amended [Inhabited α] (c : SimpleCache α) (now : Nat) (k : String)
    (v : α) (id : Nat) (e : SimpleCacheEntry α)
    (h1 : tblLookup k c.table = some id)
    (h2 : c.arena.get? id = some e)
    (h3 : hasExpired e now = false) :
    (Read c Except.ok now k).1.order = id :: c.order.erase id ∧
    (InsertOrUpdate c Except.ok now k v).2 = none ∧
    (InsertOrUpdate c Except.ok now k v).1.order = c.order := by
  have h2' : c.arena[id]? = some e := by simpa using h2
  refine ⟨?_, ?_, ?_⟩
  · simp [Read, h1, h2', h3, becomeMru, insertAsMru, selfDeleteFromLRUList]
  · simp [InsertOrUpdate, h1]
  · simp [InsertOrUpdate, h1]

/-- C1 (witness): the amended statement applied to `cacheC1`, key "a". -/
theorem C1_witness :
    (Read cacheC1 Except.ok 0 "a").1.order = 0 :: ([1, 0] : List Nat).erase 0 ∧
    (InsertOrUpdate cacheC1 Except.ok 0 "a" 3).2 = none ∧
    (InsertOrUpdate cacheC1 Except.ok 0 "a" 3).1.order = cacheC1.order := by
  have h := C1_amended cacheC1 0 "a" 3 0
    { key := "a", value := 1, timestamp := 0, expirationTime := 100,
      state := .BUSY } (by decide) (by decide) (by decide)
  exact ⟨by rw [h.1]; decide, h.2.1, h.2.2⟩

/-! ## C2: state after Clean -/

/-- A capacity-1 cache, ttl 10, holding key "a" with value 42 (written at
time 0), then cleaned. -/
def cacheC2 : SimpleCache Nat :=
  clean (InsertOrUpdate ((New Nat 1 1 10).getD default) Except.ok 0 "a" 42).1

/-- C2 (evaluation at the failing input): after `Clean` the counters are
indeed all zero, but a `Read` of the previously inserted key "a" at time 1
(before its ttl lapses) does NOT fail with NotFound: `clean` never removes
keys from the index, so the lookup still finds the record, the read succeeds,
returns the supposedly deleted value 42 and bumps `hitCount` to 1 — contrary
to `Clean`'s own documentation ("All the entries are deleted"). -/
theorem C2_clean_eval :
    cacheC2.numEntries = 0 ∧ cacheC2.hitCount = 0 ∧ cacheC2.missCount = 0 ∧
    tblLookup "a" cacheC2.table = some 0 ∧
    (Read cacheC2 Except.ok 1 "a").2 = (some 42, none) ∧
    (Read cacheC2 Except.ok 1 "a").1.hitCount = 1 := by
  decide

/-! ## C7: GetMRU failure conditions -/

/-- A capacity-1 cache, ttl 100, holding key "a" (written at time 0), then
cleaned: `numEntries = 0` but the ordering list still holds record 0. -/
def cacheC7 : SimpleCache Nat :=
  clean (InsertOrUpdate ((New Nat 1 1 100).getD default) Except.ok 0 "a" 42).1

/-- C7 (counterexample): in `cacheC7` the ordering list is non-empty (it still
links record 0), yet `GetMRU` fails with EmptyCache: the code tests
`numEntries == 0`, not list emptiness, so "fails with EmptyCache exactly when
the ordering list is empty" is refuted. -/
theorem C7_counterexample :
    cacheC7.order = [0] ∧
    GetMRU cacheC7 1 = ("", none, some .emptyCache) := by
  decide

/-- C7 (amended): `GetMRU` fails with EmptyCache exactly when the live-entry
count `numEntries` is zero (after `Clean` the ordering list may be non-empty
while EmptyCache is still reported); when `numEntries ≠ 0`, it returns the
head record's key and value, with failure MruExpired exactly when that
record's TTL has elapsed or it is not BUSY, and no failure otherwise.  It
writes nothing: no TTL refresh and no counter change (the embedded `GetMRU`
returns no successor state because the Go function performs no mutation). -/
theorem C7_amended (c : SimpleCache α) (now : Nat) (id : Nat)
    (e : SimpleCacheEntry α)
    (h1 : c.getMRU = some id)
    (h2 : c.arena.get? id = some e) :
    (c.numEntries = 0 → GetMRU c now = ("", none, some .emptyCache)) ∧
    (c.numEntries ≠ 0 →
      GetMRU c now =
        (e.key, some e.value,
         if hasExpired e now = true ∨ e.state = .AVAILABLE then
           some .mruExpired
         else none)) := by
  have h2' : c.arena[id]? = some e := by simpa using h2
  constructor
  · intro h0
    simp [GetMRU, h0]
  · intro h0
    simp only [GetMRU, h0, if_neg h0, h1, h2']
    by_cases hc : hasExpired e now = true ∨ e.state = EntryState.AVAILABLE
    · simp [h2', hc]
    · simp [h2', hc]

/-- C7 (witness): the amended statement applied to `cacheC7` (EmptyCache arm)
— `cacheC7.numEntries = 0` and `GetMRU` reports EmptyCache. -/
theorem C7_witness :
    cacheC7.numEntries = 0 ∧ GetMRU cacheC7 1 = ("", none, some .emptyCache) := by
  have h := C7_amended cacheC7 1 0
    { key := "a", value := 42, timestamp := 0, expirationTime := 100,
      state := .AVAILABLE } (by decide) (by decide)
  exact ⟨by decide, h.1 (by decide)⟩

/-! ## C8: construction validation -/

/-- C8 (counterexample): `New` with capacity 0 (not a positive integer) and
ttl 0 (not a positive duration) but a valid capFactor of 1 succeeds — it does
not panic.  The code validates only `capFactor`, refuting "construction
panics whenever a parameter is invalid". -/
theorem C8_counterexample : (New Nat 0 1 0).isSome = true := by decide

/-- C8 (amended): construction panics exactly when `capFactor` lies outside
`[0.1, 3.0]`; `capacity` and `ttl` are not validated at all — construction
succeeds for every capacity and ttl whenever `capFactor` is in range. -/
theorem C8_amended (α : Type) (capacity : Nat) (capFactor : ℚ) (ttl : Nat) :
    (New α capacity capFactor ttl).isSome = true ↔
      (mkRat 1 10 ≤ capFactor ∧ capFactor ≤ 3) := by
  unfold New
  split
  · next h =>
    simp only [Option.isSome_none, Bool.false_eq_true, false_iff]
    rintro ⟨hl, hr⟩
    rcases h with h | h
    · exact absurd hl (not_le.mpr h)
    · exact absurd hr (not_le.mpr h)
  · next h =>
    push_neg at h
    simp only [Option.isSome_some, true_iff]
    exact ⟨h.1, h.2⟩

/-! ## C9: caller-visible result of InsertOrUpdate -/

/-- A fresh capacity-1 cache with ttl 10. -/
def cacheC9 : SimpleCache Nat := (New Nat 1 1 10).getD default

/-- C9 (evaluation at the failing input): a successful `InsertOrUpdate` of
key "a" with value 42 hands the caller only `nil` — the function's whole
result is the error component, and the stored value 42 is observable only in
the cache state, not in the return.  The failure side does behave as claimed:
a key-adaptation failure and a CacheFull rejection are returned to the
caller.  (The repository's own tests call `InsertOrUpdate` expecting a
`(value, error)` pair, which the function under `src/` does not provide.) -/
theorem C9_insert_eval :
    (InsertOrUpdate cacheC9 Except.ok 0 "a" 42).2 = none ∧
    ((InsertOrUpdate cacheC9 Except.ok 0 "a" 42).1.arena.get? 0).map
        (fun e => e.value) = some 42 ∧
    (InsertOrUpdate cacheC9 (fun s => Except.error "bad key") 0 "a" 42).2
        = some (.keyAdaptation "bad key") ∧
    (InsertOrUpdate (InsertOrUpdate cacheC9 Except.ok 0 "a" 42).1
        Except.ok 1 "b" 7).2 = some .cacheFull := by
  decide

/-! ## C3: CacheFull rejection condition -/

/-- A capacity-2 cache, ttl 100: keys "a","b" written at time 0, then
`Clean`, then new keys "c","d" written at time 1.  `numEntries` is back at
capacity while the ordering list still ends with the stale (but unexpired)
record 0 of key "a". -/
def cacheC3 : SimpleCache Nat :=
  (InsertOrUpdate
    (InsertOrUpdate
      (clean
        (InsertOrUpdate
          (InsertOrUpdate ((New Nat 2 1 100).getD default) Except.ok 0 "a" 1).1
          Except.ok 0 "b" 2).1)
      Except.ok 1 "c" 3).1
    Except.ok 1 "d" 4).1

/-- C3 (counterexample): `cacheC3` is at capacity and its least-recently-used
record (record 0) has NOT expired at time 1 (its expiry is 100), yet an
insert of the new key "e" at time 1 succeeds instead of failing with
CacheFull: the record was left `AVAILABLE` by `Clean`, and eviction refuses
only records that are both unexpired and `BUSY`.  This refutes "fails with
CacheFull exactly when the least-recently-used record has not yet expired". -/
theorem C3_counterexample :
    cacheC3.numEntries = cacheC3.capacity ∧
    tblLookup "e" cacheC3.table = none ∧
    cacheC3.getLRU = some 0 ∧
    (cacheC3.arena.get? 0).map (fun e => hasExpired e 1) = some false ∧
    (InsertOrUpdate cacheC3 Except.ok 1 "e" 5).2 = none := by
  decide

/-- C3 (amended): with the cache at capacity, an insert of a new key fails
with CacheFull exactly when the least-recently-used record has not yet
expired AND is still marked `BUSY` (occupied); on such a rejection no
eviction occurs and the cache's entry set — index, ordering list, record
storage and live-entry count — is unchanged by the attempt (only `missCount`
was already incremented). -/
theorem C3_amended [Inhabited α] (c : SimpleCache α) (now : Nat) (k : String)
    (v : α) (id : Nat) (e : SimpleCacheEntry α)
    (h1 : tblLookup k c.table = none)
    (h2 : c.numEntries = c.capacity)
    (h3 : c.getLRU = some id)
    (h4 : c.arena.get? id = some e) :
    ((InsertOrUpdate c Except.ok now k v).2 = some .cacheFull ↔
      (hasExpired e now = false ∧ e.state = .BUSY)) ∧
    ((InsertOrUpdate c Except.ok now k v).2 = some .cacheFull →
      (InsertOrUpdate c Except.ok now k v).1.table = c.table ∧
      (InsertOrUpdate c Except.ok now k v).1.order = c.order ∧
      (InsertOrUpdate c Except.ok now k v).1.arena = c.arena ∧
      (InsertOrUpdate c Except.ok now k v).1.numEntries = c.numEntries) := by
  have h3' : c.order.getLast? = some id := h3
  have h4' : c.arena[id]? = some e := by simpa using h4
  cases hb : hasExpired e now with
  | true =>
    have hres : (InsertOrUpdate c Except.ok now k v).2 = none := by
      simp [InsertOrUpdate, allocateEntry, evictLruEntry, SimpleCache.getLRU,
        h1, h2, h3', h4', hb]
    refine ⟨⟨fun hcontra => ?_, fun hcond => ?_⟩, fun hfull => ?_⟩
    · rw [hres] at hcontra; cases hcontra
    · cases hcond.1
    · rw [hres] at hfull; cases hfull
  | false =>
    cases hs : e.state with
    | AVAILABLE =>
      have hres : (InsertOrUpdate c Except.ok now k v).2 = none := by
        simp [InsertOrUpdate, allocateEntry, evictLruEntry, SimpleCache.getLRU,
          h1, h2, h3', h4', hb, hs]
      refine ⟨⟨fun hcontra => ?_, fun hcond => ?_⟩, fun hfull => ?_⟩
      · rw [hres] at hcontra; cases hcontra
      · cases hcond.2
      · rw [hres] at hfull; cases hfull
    | BUSY =>
      have hres : InsertOrUpdate c Except.ok now k v =
          ({ c with missCount := c.missCount + 1 }, some .cacheFull) := by
        simp [InsertOrUpdate, allocateEntry, evictLruEntry, SimpleCache.getLRU,
          h1, h2, h3', h4', hb, hs]
      refine ⟨⟨fun _ => ⟨rfl, rfl⟩, fun _ => ?_⟩, fun _ => ?_⟩
      · rw [hres]
      · rw [hres]
        exact ⟨rfl, rfl, rfl, rfl⟩

/-- A capacity-1 cache, ttl 10, holding the live key "a" written at time 0. -/
def cacheC3w : SimpleCache Nat :=
  (InsertOrUpdate ((New Nat 1 1 10).getD default) Except.ok 0 "a" 42).1

/-- C3 (witness): the amended statement applied to `cacheC3w` — inserting the
new key "b" at time 1 is rejected with CacheFull (the LRU record "a" is
unexpired and BUSY) and leaves index and ordering list untouched. -/
theorem C3_witness :
    (InsertOrUpdate cacheC3w Except.ok 1 "b" 7).2 = some .cacheFull ∧
    (InsertOrUpdate cacheC3w Except.ok 1 "b" 7).1.order = cacheC3w.order ∧
    (InsertOrUpdate cacheC3w Except.ok 1 "b" 7).1.table = cacheC3w.table := by
  have h := C3_amended cacheC3w 1 "b" 7 0
    { key := "a", value := 42, timestamp := 0, expirationTime := 10,
      state := .BUSY } (by decide) (by decide) (by decide) (by decide)
  have hfull := h.1.mpr ⟨by decide, rfl⟩
  exact ⟨hfull, (h.2 hfull).2.1, (h.2 hfull).1⟩

/-! ## C5: sliding TTL on read -/

/-- C5: a `Read` at time `now` of a key that is present and unexpired
succeeds returning the stored value, increments `hitCount`, and resets the
record's expiry to `now + ttl`; consequently a second `Read` of the same key
at any time `t2` after the old expiry but before `now + ttl` also succeeds. -/
theorem C5_sliding_ttl [Inhabited α] (c : SimpleCache α) (now t2 : Nat)
    (k : String) (id : Nat) (e : SimpleCacheEntry α)
    (h1 : tblLookup k c.table = some id)
    (h2 : c.arena.get? id = some e)
    (h3 : hasExpired e now = false)
    (h4 : e.expirationTime < t2)
    (h5 : t2 < now + c.ttl) :
    (Read c Except.ok now k).2 = (some e.value, none) ∧
    (Read c Except.ok now k).1.hitCount = c.hitCount + 1 ∧
    ((Read c Except.ok now k).1.arena.get? id).map (fun e' => e'.expirationTime)
      = some (now + c.ttl) ∧
    (Read (Read c Except.ok now k).1 Except.ok t2 k).2.2 = none := by
  have h2' : c.arena[id]? = some e := by simpa using h2
  have harena : ((Read c Except.ok now k).1).arena =
      listModify (fun e' => { e' with expirationTime := now + c.ttl }) id
        c.arena := by
    simp [Read, h1, h2', h3, becomeMru, insertAsMru, selfDeleteFromLRUList]
  have htable : ((Read c Except.ok now k).1).table = c.table := by
    simp [Read, h1, h2', h3, becomeMru, insertAsMru, selfDeleteFromLRUList]
  have hget : ((Read c Except.ok now k).1).arena.get? id =
      some { e with expirationTime := now + c.ttl } := by
    rw [harena, listModify_get_self, h2]
    rfl
  have httl : ((Read c Except.ok now k).1).ttl = c.ttl := by
    simp [Read, h1, h2', h3, becomeMru, insertAsMru, selfDeleteFromLRUList]
  refine ⟨?_, ?_, ?_, ?_⟩
  · simp [Read, h1, h2', h3]
  · simp [Read, h1, h2', h3, becomeMru, insertAsMru, selfDeleteFromLRUList]
  · rw [hget]
    rfl
  · have hget' : ((Read c Except.ok now k).1).arena[id]? =
        some { e with expirationTime := now + c.ttl } := by simpa using hget
    have hlk : tblLookup k ((Read c Except.ok now k).1).table = some id := by
      rw [htable]; exact h1
    have hexp : hasExpired
        ({ e with expirationTime := now + c.ttl } : SimpleCacheEntry α) t2
          = false := by
      simp [hasExpired]
      omega
    generalize hc' : (Read c Except.ok now k).1 = c' at hlk hget'
    simp [Read, hlk, hget', hexp]

/-- C5 (witness): the statement applied to `cacheC3w` — "a" written at time
0 with ttl 10 is read at time 5 (old expiry 10), then read again at time 12,
after the old expiry but before the refreshed expiry 5 + 10. -/
theorem C5_witness :
    (Read cacheC3w Except.ok 5 "a").2 = (some 42, none) ∧
    (Read cacheC3w Except.ok 5 "a").1.hitCount = cacheC3w.hitCount + 1 ∧
    ((Read cacheC3w Except.ok 5 "a").1.arena.get? 0).map
        (fun e' => e'.expirationTime) = some 15 ∧
    (Read (Read cacheC3w Except.ok 5 "a").1 Except.ok 12 "a").2.2 = none := by
  have h := C5_sliding_ttl cacheC3w 5 12 "a" 0
    { key := "a", value := 42, timestamp := 0, expirationTime := 10,
      state := .BUSY } (by decide) (by decide) (by decide) (by decide)
    (by decide)
  exact ⟨h.1, by rw [h.2.1], h.2.2.1, h.2.2.2⟩

/-- Helper fact: `evictLruEntry` never touches the counters, the live count, the capacity
or the ttl. -/
theorem evictLruEntry_fields (c : SimpleCache α) (now : Nat) :
    (evictLruEntry c now).1.missCount = c.missCount ∧
    (evictLruEntry c now).1.hitCount = c.hitCount ∧
    (evictLruEntry c now).1.numEntries = c.numEntries ∧
    (evictLruEntry c now).1.capacity = c.capacity ∧
    (evictLruEntry c now).1.ttl = c.ttl := by
  unfold evictLruEntry
  split
  · exact ⟨rfl, rfl, rfl, rfl, rfl⟩
  · split
    · exact ⟨rfl, rfl, rfl, rfl, rfl⟩
    · split
      · exact ⟨rfl, rfl, rfl, rfl, rfl⟩
      · exact ⟨rfl, rfl, rfl, rfl, rfl⟩

/-- Helper fact: `allocateEntry` never touches the counters, the capacity or the ttl. -/
theorem allocateEntry_counts [Inhabited α] (c : SimpleCache α) (now : Nat)
    (k : String) :
    (allocateEntry c now k).1.missCount = c.missCount ∧
    (allocateEntry c now k).1.hitCount = c.hitCount ∧
    (allocateEntry c now k).1.capacity = c.capacity ∧
    (allocateEntry c now k).1.ttl = c.ttl := by
  unfold allocateEntry
  by_cases hcap : c.numEntries = c.capacity
  · simp only [hcap, if_true]
    have hf := evictLruEntry_fields c now
    rcases hev : evictLruEntry c now with ⟨c1, r⟩
    rw [hev] at hf
    cases r with
    | error err => exact ⟨hf.1, hf.2.1, hf.2.2.2.1, hf.2.2.2.2⟩
    | ok id =>
      exact ⟨hf.1, hf.2.1, hf.2.2.2.1, hf.2.2.2.2⟩
  · simp only [hcap, if_false]
    exact ⟨rfl, rfl, rfl, rfl⟩

/-! ## C6: hit and miss bookkeeping of the write path -/

/-- C6: a successful `InsertOrUpdate` of a key not in the index increments
both `missCount` and `hitCount` by exactly one, while a (always successful)
`InsertOrUpdate` of an already-present key increments only `hitCount` by
exactly one. -/
theorem C6_write_counters [Inhabited α] (c : SimpleCache α) (now : Nat)
    (k : String) (v : α) :
    (tblLookup k c.table = none →
      (InsertOrUpdate c Except.ok now k v).2 = none →
      (InsertOrUpdate c Except.ok now k v).1.missCount = c.missCount + 1 ∧
      (InsertOrUpdate c Except.ok now k v).1.hitCount = c.hitCount + 1) ∧
    (∀ id, tblLookup k c.table = some id →
      (InsertOrUpdate c Except.ok now k v).2 = none ∧
      (InsertOrUpdate c Except.ok now k v).1.missCount = c.missCount ∧
      (InsertOrUpdate c Except.ok now k v).1.hitCount = c.hitCount + 1) := by
  constructor
  · intro hnone hok
    have hcm := allocateEntry_counts
      { c with missCount := c.missCount + 1 } now k
    rcases hal : allocateEntry { c with missCount := c.missCount + 1 } now k
      with ⟨c1, r⟩
    rw [hal] at hcm
    cases r with
    | error err =>
      exfalso
      rw [show (InsertOrUpdate c Except.ok now k v).2 = some err by
        simp [InsertOrUpdate, hnone, hal]] at hok
      cases hok
    | ok id =>
      have hcm' : c1.missCount = c.missCount + 1 ∧ c1.hitCount = c.hitCount :=
        ⟨hcm.1, hcm.2.1⟩
      constructor
      · rw [show (InsertOrUpdate c Except.ok now k v).1.missCount
            = c1.missCount by simp [InsertOrUpdate, hnone, hal]]
        exact hcm'.1
      · rw [show (InsertOrUpdate c Except.ok now k v).1.hitCount
            = c1.hitCount + 1 by simp [InsertOrUpdate, hnone, hal]]
        rw [hcm'.2]
  · intro id hsome
    refine ⟨?_, ?_, ?_⟩ <;> simp [InsertOrUpdate, hsome]

/-- C6 (witness): inserting the new key "a" into a fresh cache bumps both
counters; updating the already-present key "a" of `cacheC3w` succeeds and
bumps only `hitCount`. -/
theorem C6_witness :
    ((InsertOrUpdate ((New Nat 2 1 10).getD default) Except.ok 0 "a" 1).1.missCount
        = ((New Nat 2 1 10).getD default).missCount + 1 ∧
     (InsertOrUpdate ((New Nat 2 1 10).getD default) Except.ok 0 "a" 1).1.hitCount
        = ((New Nat 2 1 10).getD default).hitCount + 1) ∧
    ((InsertOrUpdate cacheC3w Except.ok 2 "a" 9).2 = none ∧
     (InsertOrUpdate cacheC3w Except.ok 2 "a" 9).1.missCount
        = cacheC3w.missCount ∧
     (InsertOrUpdate cacheC3w Except.ok 2 "a" 9).1.hitCount
        = cacheC3w.hitCount + 1) :=
  ⟨(C6_write_counters ((New Nat 2 1 10).getD default) 0 "a" 1).1
      (by decide) (by decide),
   (C6_write_counters cacheC3w 2 "a" 9).2 0 (by decide)⟩

/-! ## C10: frame of a failing Read -/

theorem tblLookup_mem {s : String} {id : Nat} :
    ∀ {t : List (String × Nat)}, tblLookup s t = some id → (s, id) ∈ t := by
  intro t
  induction t with
  | nil => intro h; cases h
  | cons p rest ih =>
    rcases p with ⟨k', id'⟩
    intro h
    by_cases hk : k' = s
    · simp only [tblLookup, if_pos hk] at h
      injection h with h2
      subst hk
      subst h2
      exact List.mem_cons_self _ _
    · simp only [tblLookup, if_neg hk] at h
      exact List.mem_cons_of_mem _ (ih h)

/-- C10: when a `Read` fails with NotFound or with Expired, the only state
change is `missCount` increasing by exactly one: index, ordering list, record
storage (hence the looked-up record's value, timestamp and expiry) and
`hitCount` are all unchanged.  The hypothesis `hwf` states that every index
binding points into the record storage (true of every reachable state; Go
guarantees it by construction of the pointers). -/
theorem C10_read_failure_frame [Inhabited α] (c : SimpleCache α)
    (f : κ → Except String String) (now : Nat) (k : κ) (sk : String)
    (hwf : ∀ p ∈ c.table, (c.arena.get? p.2).isSome = true)
    (h : (Read c f now k).2.2 = some (.notFound sk) ∨
         (Read c f now k).2.2 = some (.expired sk)) :
    (Read c f now k).1 = { c with missCount := c.missCount + 1 } := by
  cases hf : f k with
  | error msg =>
    rcases h with h | h <;> simp [Read, hf] at h
  | ok sk' =>
    cases hlk : tblLookup sk' c.table with
    | none => simp [Read, hf, hlk]
    | some id =>
      have hsome := hwf (sk', id) (tblLookup_mem hlk)
      cases hget : c.arena.get? id with
      | none =>
        have hget' : c.arena[id]? = none := by simpa using hget
        simp [hget'] at hsome
      | some e =>
        have hget' : c.arena[id]? = some e := by simpa using hget
        cases hb : hasExpired e now with
        | true => simp [Read, hf, hlk, hget', hb]
        | false =>
          rcases h with h | h <;> simp [Read, hf, hlk, hget', hb] at h

/-- C10 (witness): the statement applied to `cacheC3w` — a NotFound read of
the absent key "b" at time 1 and an Expired read of "a" at time 11 each
change the state only by `missCount + 1`. -/
theorem C10_witness :
    (Read cacheC3w Except.ok 1 "b").1
        = { cacheC3w with missCount := cacheC3w.missCount + 1 } ∧
    (Read cacheC3w Except.ok 11 "a").1
        = { cacheC3w with missCount := cacheC3w.missCount + 1 } :=
  ⟨C10_read_failure_frame cacheC3w Except.ok 1 "b" "b" (by decide)
      (Or.inl (by decide)),
   C10_read_failure_frame cacheC3w Except.ok 11 "a" "a" (by decide)
      (Or.inr (by decide))⟩

/-! ## C4: capacity bound -/

/-- Helper fact: `allocateEntry` keeps the live count within capacity: at capacity it
recycles a slot without changing `numEntries`; below capacity it adds one. -/
theorem allocateEntry_invariant [Inhabited α] (c : SimpleCache α) (now : Nat)
    (k : String) (h : c.numEntries ≤ c.capacity) :
    (allocateEntry c now k).1.numEntries ≤ c.capacity ∧
    (allocateEntry c now k).1.capacity = c.capacity := by
  unfold allocateEntry
  by_cases hcap : c.numEntries = c.capacity
  · rw [if_pos hcap]
    have hf := evictLruEntry_fields c now
    rcases hev : evictLruEntry c now with ⟨c1, r⟩
    rw [hev] at hf
    have hn : c1.numEntries = c.numEntries := hf.2.2.1
    have hc : c1.capacity = c.capacity := hf.2.2.2.1
    cases r with
    | error err =>
      refine ⟨?_, hc⟩
      show c1.numEntries ≤ c.capacity
      exact le_of_eq (by rw [hn, hcap])
    | ok id =>
      refine ⟨?_, hc⟩
      show c1.numEntries ≤ c.capacity
      exact le_of_eq (by rw [hn, hcap])
  · rw [if_neg hcap]
    refine ⟨?_, rfl⟩
    show c.numEntries + 1 ≤ c.capacity
    omega

/-- Helper fact: `Read` never changes the live count or the capacity. -/
theorem Read_live_fields [Inhabited α] (c : SimpleCache α)
    (f : κ → Except String String) (now : Nat) (k : κ) :
    (Read c f now k).1.numEntries = c.numEntries ∧
    (Read c f now k).1.capacity = c.capacity := by
  unfold Read
  split
  · exact ⟨rfl, rfl⟩
  · split
    · exact ⟨rfl, rfl⟩
    · split
      · exact ⟨rfl, rfl⟩
      · split
        · exact ⟨rfl, rfl⟩
        · exact ⟨rfl, rfl⟩

/-- Helper fact: `InsertOrUpdate` keeps the live count within capacity. -/
theorem InsertOrUpdate_invariant [Inhabited α] (c : SimpleCache α)
    (f : κ → Except String String) (now : Nat) (k : κ) (v : α)
    (h : c.numEntries ≤ c.capacity) :
    (InsertOrUpdate c f now k v).1.numEntries ≤ c.capacity ∧
    (InsertOrUpdate c f now k v).1.capacity = c.capacity := by
  cases hf : f k with
  | error msg =>
    have heq : (InsertOrUpdate c f now k v).1 = c := by
      simp [InsertOrUpdate, hf]
    rw [heq]
    exact ⟨h, rfl⟩
  | ok sk =>
    cases hlk : tblLookup sk c.table with
    | some id =>
      have hnum : (InsertOrUpdate c f now k v).1.numEntries = c.numEntries := by
        simp [InsertOrUpdate, hf, hlk]
      have hcp : (InsertOrUpdate c f now k v).1.capacity = c.capacity := by
        simp [InsertOrUpdate, hf, hlk]
      rw [hnum, hcp]
      exact ⟨h, rfl⟩
    | none =>
      have hal := allocateEntry_invariant
        { c with missCount := c.missCount + 1 } now sk h
      rcases hA : allocateEntry { c with missCount := c.missCount + 1 } now sk
        with ⟨c1, r⟩
      rw [hA] at hal
      have hal1 : c1.numEntries ≤ c.capacity := hal.1
      have hal2 : c1.capacity = c.capacity := hal.2
      cases r with
      | error err =>
        have heq : (InsertOrUpdate c f now k v).1 = c1 := by
          simp [InsertOrUpdate, hf, hlk, hA]
        rw [heq]
        exact ⟨hal1, hal2⟩
      | ok id =>
        have hnum : (InsertOrUpdate c f now k v).1.numEntries
            = c1.numEntries := by
          simp [InsertOrUpdate, hf, hlk, hA]
        have hcp : (InsertOrUpdate c f now k v).1.capacity = c1.capacity := by
          simp [InsertOrUpdate, hf, hlk, hA]
        rw [hnum, hcp]
        exact ⟨hal1, hal2⟩

/-- Every public operation keeps `numEntries ≤ capacity` and preserves the
capacity itself. -/
theorem applyOp_invariant [Inhabited α] (c : SimpleCache α) (op : CacheOp α)
    (h : c.numEntries ≤ c.capacity) :
    (applyOp c op).numEntries ≤ (applyOp c op).capacity ∧
    (applyOp c op).capacity = c.capacity := by
  cases op with
  | insert now k v =>
    have hi := InsertOrUpdate_invariant c Except.ok now k v h
    exact ⟨le_of_le_of_eq hi.1 hi.2.symm, hi.2⟩
  | read now k =>
    have hr := Read_live_fields c Except.ok now k
    refine ⟨?_, hr.2⟩
    show (Read c Except.ok now k).1.numEntries ≤ (Read c Except.ok now k).1.capacity
    rw [hr.1, hr.2]
    exact h
  | getMRU now => exact ⟨h, rfl⟩
  | clean => exact ⟨Nat.zero_le _, rfl⟩

/-- The invariant of `applyOp_invariant`, threaded through a whole run. -/
theorem runOps_invariant [Inhabited α] (ops : List (CacheOp α)) :
    ∀ c : SimpleCache α, c.numEntries ≤ c.capacity →
      (runOps c ops).numEntries ≤ (runOps c ops).capacity ∧
      (runOps c ops).capacity = c.capacity := by
  induction ops with
  | nil => exact fun c h => ⟨h, rfl⟩
  | cons op rest ih =>
    intro c h
    have h1 := applyOp_invariant c op h
    have h2 := ih (applyOp c op) h1.1
    exact ⟨h2.1, h2.2.trans h1.2⟩

/-- C4: starting from a freshly constructed cache, `numEntries` (the live
count) stays at most `capacity` after every sequence of `InsertOrUpdate`,
`Read`, `GetMRU` and `Clean` operations. -/
theorem C4_capacity_bound (capacity : Nat) (capFactor : ℚ) (ttl : Nat)
    (c0 : SimpleCache Nat) (h : New Nat capacity capFactor ttl = some c0)
    (ops : List (CacheOp Nat)) :
    (runOps c0 ops).numEntries ≤ capacity := by
  have hfields : c0.numEntries = 0 ∧ c0.capacity = capacity := by
    unfold New at h
    split at h
    · cases h
    · injection h with h2
      rw [← h2]
      exact ⟨rfl, rfl⟩
  have hinv := runOps_invariant ops c0 (by rw [hfields.1]; exact Nat.zero_le _)
  calc (runOps c0 ops).numEntries ≤ (runOps c0 ops).capacity := hinv.1
    _ = c0.capacity := hinv.2
    _ = capacity := hfields.2

/-- C4 (witness): a concrete capacity-1 construction and a six-operation run
(two inserts, a read, a peek, a clean, one more insert) end with at most one
live entry. -/
theorem C4_witness :
    (runOps ((New Nat 1 1 5).getD default)
      [CacheOp.insert 0 "a" 1, CacheOp.insert 0 "b" 2, CacheOp.read 1 "a",
       CacheOp.getMRU 1, CacheOp.clean, CacheOp.insert 2 "c" 3]).numEntries
      ≤ 1 :=
  C4_capacity_bound 1 1 5 _ (by decide) _
